import Mathlib

set_option maxHeartbeats 1000000

/-
Verification of GDBDecompile (a GDB extension, src/GDBDecompile.py) against
its specification.  The Python code is shallowly embedded: the ambient world
(gdb output capture, the filesystem, the external decompiler process) is an
explicit `Env`, the singleton's mutable attributes are a `DState`, side
effects are recorded as an `Event` trace, and Python exceptions become the
`Except PyErr` error monad.  All definitions are executable.
-/

namespace GDBDecompile

/-! ### Python string / path primitives used by the code -/

/-- Python `str.split(sep)` for a one-character separator: splits on every
occurrence of `c`, keeps empty pieces, and always returns at least one
piece (`"".split(c) == [""]`). -/
def splitOnChar (c : Char) : List Char → List (List Char)
  | [] => [[]]
  | d :: rest =>
    if d = c then [] :: splitOnChar c rest
    else
      match splitOnChar c rest with
      | h :: t => (d :: h) :: t
      | [] => [[d]]

/-- Boolean test that the first character of `s` is `c`. -/
def strHeadIs (c : Char) (s : String) : Bool :=
  match s.data with
  | [] => false
  | d :: _ => d == c

/-- Boolean test that the last character of `s` is `c`. -/
def strLastIs (c : Char) (s : String) : Bool :=
  match s.data.getLast? with
  | some d => d == c
  | none => false

/-- Boolean test that `pre` is a prefix of `s` (Python `s.startswith(pre)`). -/
def strStarts (pre s : String) : Bool :=
  pre.data.isPrefixOf s.data

/-- Drop the first `n` characters of `s`. -/
def strDropChars (n : Nat) (s : String) : String :=
  String.mk (s.data.drop n)

/-- Boolean test that character `c` occurs in `s`. -/
def strContainsChar (c : Char) (s : String) : Bool :=
  s.data.contains c

/-- Model of `os.path.join(a, b)` on POSIX: `b` absolute replaces `a`;
otherwise a separator is inserted unless `a` is empty or already ends in
one. -/
def pyJoin (a b : String) : String :=
  if strHeadIs '/' b then b
  else if a = "" || strLastIs '/' a then a ++ b
  else a ++ "/" ++ b

/-- Model of `os.path.basename`: everything after the last `'/'`. -/
def pyBasename (s : String) : String :=
  String.mk ((splitOnChar '/' s.data).getLastD [])

/-- Root part of `os.path.splitext` (POSIX) for a path that contains no
directory separator, as produced by `os.path.basename`: the extension after
the last dot is dropped, unless every character before that dot is itself a
dot (so `".bashrc"` keeps its name). -/
def pySplitextRoot (p : String) : String :=
  match p.data.reverse.findIdx? (fun c => c == '.') with
  | none => p
  | some r =>
    let i := p.data.length - 1 - r
    if (p.data.take i).any (fun c => c != '.') then String.mk (p.data.take i) else p

/-- Python `", ".join` over a list of strings. -/
def joinComma : List String → String
  | [] => ""
  | [x] => x
  | x :: xs => x ++ ", " ++ joinComma xs

/-- Model of `os.path.expanduser` on POSIX for the forms the config can
reasonably hold: a bare `"~"` or a `"~/..."` path expands against the home
directory; other strings (including the unmodelled `"~user"` form) are
returned unchanged. -/
def pyExpanduser (home s : String) : String :=
  if s = "~" then home
  else if strStarts "~/" s then home ++ strDropChars 1 s
  else s

/-! ### Errors, events, state -/

/-- Python exceptions that can escape the embedded code. -/
inductive PyErr where
  | keyError (key : String)
  | attributeError
  | indexError
deriving DecidableEq

/-- Observable side effects of one call, in program order.  `display msg`
records the message passed to `GDBDecompile.display` (the constant coloured
prompt prefix it prepends is elided); `rmtree`/`mkdir` are the cache
directory operations; `runDecompiler` is the `subprocess.run` of
`ghidrecomp`; `readF` is the read of a matched cache file; `printOut` is
the final `print` of highlighted source in the command handler. -/
inductive Event where
  | display (msg : String)
  | rmtree (path : String)
  | mkdir (path : String)
  | runDecompiler (outPath : String) (ghidraDir : String) (target : String)
  | readF (path : String)
  | printOut (text : String)
deriving DecidableEq

/-- Ambient inputs of one invocation: `infoTargetOutput` is what
`executeCapture "info target"` produced (`none` models the case where the
gdb command raised and the capture returned `None`); `pathExists`, `glob`
and `readFile` are the filesystem as seen by the call (files matched by
`glob` are assumed readable, and `rmtree`/`mkdir` are assumed to succeed,
recorded as events); `runExitCode` is the exit status of the external
decompiler process, which the code receives from `subprocess.run` and never
inspects; `home` is the user's home directory; `highlight` is the pygments
highlighter applied by the command handler. -/
structure Env where
  infoTargetOutput : Option String
  pathExists : String → Bool
  glob : String → List String
  readFile : String → String
  runExitCode : Int
  home : String
  highlight : String → String

/-- Mutable attributes of the `GDBDecompile` singleton. -/
structure DState where
  loaded : Bool
  options : List (String × String)
  decompiled : Bool
deriving DecidableEq

/-- Outcome of `GDBDecompile.decompile`: the returned value (or escaped
exception), the state after the call, and the event trace. -/
structure DResult where
  result : Except PyErr (Option String)
  state : DState
  events : List Event

/-- Outcome of `GDBDecompileCommand.invoke`: `Unit` on normal return. -/
structure IResult where
  result : Except PyErr Unit
  state : DState
  events : List Event

/-- Python `self.options[key]` on the toml dict, restricted to the string
values the code uses: a missing key raises `KeyError`. -/
def dictGet (opts : List (String × String)) (k : String) : Except PyErr String :=
  match opts.find? (fun kv => kv.1 == k) with
  | some kv => .ok kv.2
  | none => .error (.keyError k)

/-! ### The embedded program -/

/-- Embedding of `GDBDecompile._getTarget` applied to the captured output of
`info target`.  A capture of `None` (the gdb command raised) makes
`target.split` raise `AttributeError`; non-empty output whose first line
contains no double quote makes `[1]` raise `IndexError`; empty output
returns `None`; otherwise the text between the first pair of quotes on the
first line is the target path. -/
def getTarget (captured : Option String) : Except PyErr (Option String) :=
  match captured with
  | none => .error .attributeError
  | some t =>
    if t = "" then .ok none
    else
      match splitOnChar '"' ((splitOnChar '\n' t.data).headD []) with
      | _ :: second :: _ => .ok (some (String.mk second))
      | _ => .error .indexError

/-- The glob pattern built on line 79 of the source:
`os.path.join(path, os.path.basename(target), function) + "*"`. -/
def globPattern (path target function : String) : String :=
  pyJoin (pyJoin path (pyBasename target)) function ++ "*"

/-- The second error message of the ambiguous-match branch (line 86):
lists `os.path.splitext(os.path.basename(f))[0]` for every candidate. -/
def specifyMsg (files : List String) : String :=
  "Specify with `decompile \x7b" ++
    joinComma (files.map (fun f => pySplitextRoot (pyBasename f))) ++ "\x7d`"

/-- Lines 79-90 of `GDBDecompile.decompile`: glob the cache subdirectory
and dispatch on the number of matches.  `evs` is the trace accumulated so
far. -/
def globPhase (env : Env) (st : DState) (function path target : String)
    (evs : List Event) : DResult :=
  match env.glob (globPattern path target function) with
  | [] =>
    ⟨.ok none, st,
      evs ++ [.display ("ERROR: No match for function with name `" ++ function ++ "`")]⟩
  | [f] => ⟨.ok (some (env.readFile f)), st, evs ++ [.readF f]⟩
  | fs =>
    ⟨.ok none, st,
      evs ++ [.display ("ERROR: Multiple similar or duplicate functions found with name `"
                ++ function ++ "`"),
              .display (specifyMsg fs)]⟩

/-- Embedding of `GDBDecompile.decompile` (lines 61-90). -/
def decompile (env : Env) (st : DState) (function : String) : DResult :=
  match getTarget env.infoTargetOutput with
  | .error e => ⟨.error e, st, []⟩
  | .ok none => ⟨.ok none, st, [.display "ERROR: No target is loaded"]⟩
  | .ok (some target) =>
    match dictGet st.options "decomp_path" with
    | .error e => ⟨.error e, st, []⟩
    | .ok path =>
      if st.decompiled then
        globPhase env st function path target []
      else
        let pre := (if env.pathExists path then [Event.rmtree path] else [])
          ++ [Event.mkdir path]
        match dictGet st.options "ghidra_path" with
        | .error e => ⟨.error e, st, pre⟩
        | .ok ghidra =>
          globPhase env { st with decompiled := true } function path target
            (pre ++ [.display "Decompiling...",
                     .runDecompiler path (pyExpanduser env.home ghidra) target,
                     .display "Done!"])

/-- Embedding of `GDBDecompileCommand.invoke` (lines 130-143). -/
def invoke (env : Env) (st : DState) (arg : String) : IResult :=
  if !st.loaded then
    ⟨.ok (), st, [.display "ERROR: Extension improperly loaded. Exiting."]⟩
  else
    let args := (splitOnChar ' ' arg.data).map String.mk
    if 1 < args.length ∨ args.headD "" = "" then
      ⟨.ok (), st, [.display "ERROR: Invalid command",
                    .display "Usage: `decompile <function name>`"]⟩
    else
      let r := decompile env st (args.headD "")
      match r.result with
      | .error e => ⟨.error e, r.state, r.events⟩
      | .ok none => ⟨.ok (), r.state, r.events⟩
      | .ok (some code) => ⟨.ok (), r.state, r.events ++ [.printOut (env.highlight code)]⟩

/-- How the attempt to open and parse the config file ended. -/
inductive ConfigRead where
  | ok (options : List (String × String))
  | decodeError
  | notFound
  | otherError (msg : String)

/-- Outcome of `GDBDecompile._loadConfig`: the options dict it returns and
the value the method stored into `self.loaded`. -/
structure LoadResult where
  options : List (String × String)
  loaded : Bool
  events : List Event

/-- Embedding of `GDBDecompile._loadConfig` (lines 92-109).  Note that
line 108 runs after the `try`/`except`, so `loaded` is set to `true` on
every path, including the caught failures. -/
def loadConfig (read : ConfigRead) (home : String) (name : String) : LoadResult :=
  let configPath := pyJoin (pyJoin home "GDBDecompile") name
  match read with
  | .ok opts => ⟨opts, true, []⟩
  | .decodeError =>
    ⟨[], true, [.display ("ERROR: Cannot decode " ++ configPath ++ ". Exiting.")]⟩
  | .notFound =>
    ⟨[], true, [.display ("ERROR: Cannot locate " ++ configPath ++ ". Exiting.")]⟩
  | .otherError m => ⟨[], true, [.display ("Error: " ++ m)]⟩

/-- Embedding of `GDBDecompile.__init__`: the state of the fresh singleton
together with the events emitted while loading the config. -/
def initState (read : ConfigRead) (home : String) : DState × List Event :=
  let lr := loadConfig read home "config.toml"
  ({ loaded := lr.loaded, options := lr.options, decompiled := false }, lr.events)

/-! ### Semantics of `glob.glob` for the pattern the code builds

`decompile` calls `glob.glob(outDir)` where `outDir` is a single-directory
pattern `cacheSubdir/function*`.  The model below follows Python's
`fnmatch` pattern language (`*`, `?`, `[...]` with ranges and `!`
negation, an unterminated `[` being a literal) plus `glob`'s rule that a
name starting with a dot is only matched by a pattern starting with a
dot.  Reversed ranges and the exotic multi-hyphen class forms of
`fnmatch.translate` are not reproduced exactly; no claim depends on them. -/

/-- Split a class body at its closing `']'`: returns the content before it
and the remainder after it, or `none` when the bracket is unterminated. -/
def findClose : List Char → Option (List Char × List Char)
  | [] => none
  | c :: rest =>
    if c = ']' then some ([], rest)
    else
      match findClose rest with
      | some (a, b) => some (c :: a, b)
      | none => none

/-- Scan the characters after a `'['`: strips an initial `'!'` (negation),
treats a `']'` in first content position as a literal member, and finds the
closing `']'`.  Returns `(negated, content, rest-of-pattern)`, or `none`
when the class is unterminated (the `'['` is then a literal). -/
def classSpan (l : List Char) : Option (Bool × List Char × List Char) :=
  let stripped := match l with
    | '!' :: r => (true, r)
    | _ => (false, l)
  match stripped.2 with
  | ']' :: r2 =>
    match findClose r2 with
    | some (a, b) => some (stripped.1, ']' :: a, b)
    | none => none
  | _ =>
    match findClose stripped.2 with
    | some (a, b) => some (stripped.1, a, b)
    | none => none

/-- Membership of `c` in a class body: `a-b` is a codepoint range, other
characters are literals. -/
def classHas (c : Char) : List Char → Bool
  | a :: '-' :: b :: rest => (decide (a ≤ c) && decide (c ≤ b)) || classHas c rest
  | a :: rest => (a == c) || classHas c rest
  | [] => false

/-- A class matches `c` when `c` is in the body, flipped by negation. -/
def classMatch (neg : Bool) (content : List Char) (c : Char) : Bool :=
  if neg then !(classHas c content) else classHas c content

/-- Fuel-indexed `fnmatch` matcher over character lists (pattern, name).
Each step consumes at least one character of pattern or name, so fuel
`p.length + s.length + 1` is always sufficient. -/
def fnmatchF : Nat → List Char → List Char → Bool
  | 0, _, _ => false
  | fuel + 1, p, s =>
    match p with
    | [] => s.isEmpty
    | c :: p' =>
      if c = '*' then
        fnmatchF fuel p' s ||
          (match s with
           | [] => false
           | _ :: s' => fnmatchF fuel p s')
      else if c = '?' then
        match s with
        | [] => false
        | _ :: s' => fnmatchF fuel p' s'
      else if c = '[' then
        match classSpan p' with
        | some (neg, content, rest) =>
          match s with
          | [] => false
          | d :: s' => classMatch neg content d && fnmatchF fuel rest s'
        | none =>
          match s with
          | [] => false
          | d :: s' => (d == '[') && fnmatchF fuel p' s'
      else
        match s with
        | [] => false
        | d :: s' => (c == d) && fnmatchF fuel p' s'

/-- `fnmatch.fnmatch` on character lists, with sufficient fuel. -/
def fnmatch (p s : List Char) : Bool :=
  fnmatchF (p.length + s.length + 1) p s

/-- `glob.glob` for a single-directory pattern `dir/q` (with `q` free of
`'/'`), given the listing of `dir`: names matching `q`, except that hidden
names (leading dot) require the pattern to start with a dot, each returned
joined to `dir`.  Listing order is preserved, as `glob` preserves the
directory enumeration order. -/
def globDir (dir : String) (listing : List String) (q : String) : List String :=
  let visible := if strHeadIs '.' q then listing
    else listing.filter (fun n => !(strHeadIs '.' n))
  (visible.filter (fun n => fnmatch q.data n.data)).map (fun n => dir ++ "/" ++ n)

/-- A `glob` oracle realised by a one-directory filesystem: patterns inside
`dir` are answered by `globDir`, everything else is empty.  Used to
instantiate `Env.glob` on concrete runs. -/
def globAt (dir : String) (listing : List String) (pat : String) : List String :=
  if strStarts (dir ++ "/") pat then
    let q := strDropChars (dir.length + 1) pat
    if strContainsChar '/' q then [] else globDir dir listing q
  else []

/-! ### Observation helpers -/

/-- Number of external-decompiler invocations recorded in a trace. -/
def countRun : List Event → Nat
  | [] => 0
  | Event.runDecompiler _ _ _ :: rest => countRun rest + 1
  | _ :: rest => countRun rest

/-- Boolean test that an `Except` is a normal (non-exception) result. -/
def exOk {ε α : Type} : Except ε α → Bool
  | .ok _ => true
  | .error _ => false

/-! ### Concrete sample worlds for witnesses and counterexamples -/

/-- A well-formed configuration with both required keys. -/
def sampleOptions : List (String × String) :=
  [("decomp_path", "out"), ("ghidra_path", "~/ghidra")]

/-- A session with target `/bin/ls` loaded and a cache that answers
`main*` with one file and `f*` with two. -/
def sampleEnv : Env where
  infoTargetOutput := some "Symbols from \"/bin/ls\".\nLocal exec file:"
  pathExists := fun _ => true
  glob := fun pat =>
    if pat = "out/ls/main*" then ["out/ls/main.c"]
    else if pat = "out/ls/f*" then ["out/ls/foo.c", "out/ls/fbar.c"]
    else []
  readFile := fun _ => "int main;"
  runExitCode := 0
  home := "/root"
  highlight := fun s => s

/-- Session state after a completed first decompilation. -/
def sampleState : DState where
  loaded := true
  options := sampleOptions
  decompiled := true

/-- Session state before the first decompilation. -/
def freshState : DState where
  loaded := true
  options := sampleOptions
  decompiled := false

/-! ### Helper lemmas -/

theorem countRun_append (a b : List Event) :
    countRun (a ++ b) = countRun a + countRun b := by
  induction a with
  | nil => simp [countRun]
  | cons e rest ih => cases e <;> simp [countRun, ih, Nat.add_right_comm]

theorem globPhase_state (env : Env) (st : DState) (fn path target : String)
    (evs : List Event) : (globPhase env st fn path target evs).state = st := by
  rcases h : env.glob (globPattern path target fn) with _ | ⟨a, _ | ⟨b, l⟩⟩ <;>
    simp [globPhase, h]

theorem globPhase_exOk (env : Env) (st : DState) (fn path target : String)
    (evs : List Event) : exOk (globPhase env st fn path target evs).result = true := by
  rcases h : env.glob (globPattern path target fn) with _ | ⟨a, _ | ⟨b, l⟩⟩ <;>
    simp [globPhase, h, exOk]

theorem globPhase_events (env : Env) (st : DState) (fn path target : String)
    (evs : List Event) :
    ∃ tail, (globPhase env st fn path target evs).events = evs ++ tail ∧
      countRun tail = 0 := by
  rcases h : env.glob (globPattern path target fn) with _ | ⟨a, _ | ⟨b, l⟩⟩
  · exact ⟨[.display ("ERROR: No match for function with name `" ++ fn ++ "`")],
      by simp [globPhase, h], rfl⟩
  · exact ⟨[.readF a], by simp [globPhase, h], rfl⟩
  · exact ⟨[.display ("ERROR: Multiple similar or duplicate functions found with name `"
        ++ fn ++ "`"), .display (specifyMsg (a :: b :: l))],
      by simp [globPhase, h], rfl⟩

theorem decompile_already (env : Env) (st : DState) (fn : String)
    (hdec : st.decompiled = true) :
    countRun (decompile env st fn).events = 0 ∧ (decompile env st fn).state = st := by
  unfold decompile
  rcases hT : getTarget env.infoTargetOutput with e | o
  · exact ⟨rfl, rfl⟩
  · rcases o with _ | t
    · exact ⟨rfl, rfl⟩
    · rcases hP : dictGet st.options "decomp_path" with e | p
      · exact ⟨rfl, rfl⟩
      · simp only [hdec, if_true]
        obtain ⟨tail, he, hc⟩ := globPhase_events env st fn p t []
        refine ⟨?_, globPhase_state env st fn p t []⟩
        rw [he]
        simpa using hc

theorem decompile_exOk (env : Env) (st : DState) (fn : String)
    (hP : ∃ v, dictGet st.options "decomp_path" = .ok v)
    (hG : ∃ v, dictGet st.options "ghidra_path" = .ok v)
    (hT : exOk (getTarget env.infoTargetOutput) = true) :
    exOk (decompile env st fn).result = true := by
  obtain ⟨p, hp⟩ := hP
  obtain ⟨g, hg⟩ := hG
  unfold decompile
  rcases h : getTarget env.infoTargetOutput with e | o
  · rw [h] at hT
    simp [exOk] at hT
  · rcases o with _ | t
    · simp [exOk]
    · rw [hp]
      by_cases hdec : st.decompiled = true
      · simp only [hdec, if_true]
        exact globPhase_exOk env st fn p t []
      · simp only [Bool.not_eq_true] at hdec
        simp only [hdec, Bool.false_eq_true, if_false, hg]
        exact globPhase_exOk env _ fn p t _

theorem fnmatchF_star (s : List Char) : ∀ fuel, s.length + 2 ≤ fuel →
    fnmatchF fuel ['*'] s = true := by
  induction s with
  | nil =>
    intro fuel h
    obtain ⟨k, rfl⟩ : ∃ k, fuel = k + 2 := ⟨fuel - 2, by omega⟩
    simp [fnmatchF]
  | cons c s' ih =>
    intro fuel h
    obtain ⟨k, rfl⟩ : ∃ k, fuel = k + 1 := ⟨fuel - 1, by omega⟩
    have h2 : s'.length + 2 ≤ k := by
      simp only [List.length_cons] at h
      omega
    simp [fnmatchF, ih k h2]

theorem fnmatchF_lit (f : List Char) : ∀ (s : List Char) (fuel : Nat),
    f.length + s.length + 2 ≤ fuel →
    (∀ c ∈ f, ¬c = '*' ∧ ¬c = '?' ∧ ¬c = '[') →
    fnmatchF fuel (f ++ ['*']) s = f.isPrefixOf s := by
  induction f with
  | nil =>
    intro s fuel h _
    have hs := fnmatchF_star s fuel (by omega)
    have hp : ([] : List Char).isPrefixOf s = true := by cases s <;> rfl
    simpa [hp] using hs
  | cons c f' ih =>
    intro s fuel h hm
    obtain ⟨k, rfl⟩ : ∃ k, fuel = k + 1 := ⟨fuel - 1, by omega⟩
    obtain ⟨hc1, hc2, hc3⟩ := hm c (List.mem_cons_self c f')
    show fnmatchF (k + 1) (c :: (f' ++ ['*'])) s = _
    simp only [fnmatchF]
    rw [if_neg hc1, if_neg hc2, if_neg hc3]
    cases s with
    | nil => rfl
    | cons d s' =>
      have hk : f'.length + s'.length + 2 ≤ k := by
        simp only [List.length_cons] at h
        omega
      have := ih s' k hk (fun a ha => hm a (List.mem_cons_of_mem c ha))
      simp only [this]
      rfl

theorem fnmatch_lit (f s : List Char)
    (hm : ∀ c ∈ f, ¬c = '*' ∧ ¬c = '?' ∧ ¬c = '[') :
    fnmatch (f ++ ['*']) s = f.isPrefixOf s := by
  unfold fnmatch
  exact fnmatchF_lit f s _ (by simp; omega) hm

theorem filter_of_filter_not_hidden (P : String → Bool) (L : List String)
    (h : ∀ n, strHeadIs '.' n = true → P n = false) :
    (L.filter (fun n => !(strHeadIs '.' n))).filter P = L.filter P := by
  induction L with
  | nil => rfl
  | cons a t ih =>
    by_cases ha : strHeadIs '.' a = true
    · simp [List.filter_cons, ha, h a ha, ih]
    · have ha' : strHeadIs '.' a = false := by
        cases hb : strHeadIs '.' a
        · rfl
        · exact absurd hb ha
      simp [List.filter_cons, ha', ih]

/-! ### Claim theorems -/

/-- C1: for every decompile invocation where the target is loaded and the
glob over the cache subdirectory for the target binary yields exactly one
file, the operation returns exactly that file's contents, unmodified, as
the result string. -/
theorem decompile_unique_match_returns_contents
    (env : Env) (st : DState) (fn t p file : String)
    (hT : getTarget env.infoTargetOutput = .ok (some t))
    (hP : dictGet st.options "decomp_path" = .ok p)
    (hD : st.decompiled = true ∨ ∃ g, dictGet st.options "ghidra_path" = .ok g)
    (hglob : env.glob (globPattern p t fn) = [file]) :
    (decompile env st fn).result = .ok (some (env.readFile file)) := by
  unfold decompile
  rw [hT, hP]
  rcases hD with hdec | ⟨g, hG⟩
  · simp [hdec, globPhase, hglob]
  · by_cases hdec : st.decompiled = true
    · simp [hdec, globPhase, hglob]
    · simp only [Bool.not_eq_true] at hdec
      simp [hdec, hG, globPhase, hglob]

/-- Witness for C1 on the concrete sample world. -/
theorem decompile_unique_match_returns_contents_witness :
    (decompile sampleEnv sampleState "main").result = .ok (some "int main;") :=
  decompile_unique_match_returns_contents sampleEnv sampleState "main" "/bin/ls"
    "out" "out/ls/main.c" rfl rfl (Or.inl rfl) rfl

/-- C3: when the host debugger reports no loaded binary (the capture of
`info target` is empty), decompile reports the no-target error, returns
`None`, and neither invokes the decompiler nor touches the cache. -/
theorem decompile_without_target_reports_error
    (env : Env) (st : DState) (fn : String)
    (h : env.infoTargetOutput = some "") :
    (decompile env st fn).result = .ok none ∧
    (decompile env st fn).state = st ∧
    (decompile env st fn).events = [Event.display "ERROR: No target is loaded"] ∧
    countRun (decompile env st fn).events = 0 := by
  have hT : getTarget env.infoTargetOutput = .ok none := by rw [h]; rfl
  unfold decompile
  rw [hT]
  exact ⟨rfl, rfl, rfl, rfl⟩

/-- Cache/debugger world in which `info target` produced no output. -/
def noTargetEnv : Env := { sampleEnv with infoTargetOutput := some "" }

/-- Witness for C3 on the concrete sample world. -/
theorem decompile_without_target_reports_error_witness :
    (decompile noTargetEnv freshState "main").result = .ok none ∧
    (decompile noTargetEnv freshState "main").state = freshState ∧
    (decompile noTargetEnv freshState "main").events
      = [Event.display "ERROR: No target is loaded"] ∧
    countRun (decompile noTargetEnv freshState "main").events = 0 :=
  decompile_without_target_reports_error noTargetEnv freshState "main" rfl

/-- C4: a command argument that is empty or splits on single spaces into
more than one token makes the handler print the usage error and return
without calling decompile: the state is unchanged and nothing but the two
usage messages happens. -/
theorem invoke_bad_argument_count_usage_error
    (env : Env) (st : DState) (arg : String)
    (hl : st.loaded = true)
    (h : arg = "" ∨ 1 < (splitOnChar ' ' arg.data).length) :
    invoke env st arg = ⟨.ok (), st,
      [.display "ERROR: Invalid command",
       .display "Usage: `decompile <function name>`"]⟩ ∧
    countRun (invoke env st arg).events = 0 := by
  have hcond : 1 < ((splitOnChar ' ' arg.data).map String.mk).length ∨
      ((splitOnChar ' ' arg.data).map String.mk).headD "" = "" := by
    rcases h with rfl | h
    · right; rfl
    · left; simpa using h
  unfold invoke
  simp only [hl, Bool.not_true, Bool.false_eq_true, if_false]
  rw [if_pos hcond]
  exact ⟨rfl, rfl⟩

/-- Witness for C4 on the concrete sample world. -/
theorem invoke_bad_argument_count_usage_error_witness :
    invoke sampleEnv sampleState "" = ⟨.ok (), sampleState,
      [.display "ERROR: Invalid command",
       .display "Usage: `decompile <function name>`"]⟩ ∧
    countRun (invoke sampleEnv sampleState "").events = 0 :=
  invoke_bad_argument_count_usage_error sampleEnv sampleState "" rfl (Or.inl rfl)

/-- C5: with a loaded target, a glob over the cache subdirectory matching
zero files makes decompile report the no-match error and return `None`. -/
theorem decompile_zero_matches_reports_no_match
    (env : Env) (st : DState) (fn t p : String)
    (hT : getTarget env.infoTargetOutput = .ok (some t))
    (hP : dictGet st.options "decomp_path" = .ok p)
    (hD : st.decompiled = true ∨ ∃ g, dictGet st.options "ghidra_path" = .ok g)
    (hglob : env.glob (globPattern p t fn) = []) :
    (decompile env st fn).result = .ok none ∧
    Event.display ("ERROR: No match for function with name `" ++ fn ++ "`")
      ∈ (decompile env st fn).events := by
  unfold decompile
  rw [hT, hP]
  rcases hD with hdec | ⟨g, hG⟩
  · simp [hdec, globPhase, hglob]
  · by_cases hdec : st.decompiled = true
    · simp [hdec, globPhase, hglob]
    · simp only [Bool.not_eq_true] at hdec
      simp [hdec, hG, globPhase, hglob]

/-- Witness for C5 on the concrete sample world. -/
theorem decompile_zero_matches_reports_no_match_witness :
    (decompile sampleEnv sampleState "absent").result = .ok none ∧
    Event.display ("ERROR: No match for function with name `" ++ "absent" ++ "`")
      ∈ (decompile sampleEnv sampleState "absent").events :=
  decompile_zero_matches_reports_no_match sampleEnv sampleState "absent" "/bin/ls"
    "out" rfl rfl (Or.inl rfl) rfl

/-- C6: with a loaded target, a glob matching more than one file makes
decompile report the ambiguity, display the stem of every matching
candidate, return `None`, and read no file. -/
theorem decompile_multiple_matches_lists_candidates
    (env : Env) (st : DState) (fn t p f1 f2 : String) (rest : List String)
    (hT : getTarget env.infoTargetOutput = .ok (some t))
    (hP : dictGet st.options "decomp_path" = .ok p)
    (hD : st.decompiled = true ∨ ∃ g, dictGet st.options "ghidra_path" = .ok g)
    (hglob : env.glob (globPattern p t fn) = f1 :: f2 :: rest) :
    (decompile env st fn).result = .ok none ∧
    Event.display ("ERROR: Multiple similar or duplicate functions found with name `"
        ++ fn ++ "`") ∈ (decompile env st fn).events ∧
    Event.display (specifyMsg (f1 :: f2 :: rest)) ∈ (decompile env st fn).events ∧
    ∀ q, Event.readF q ∉ (decompile env st fn).events := by
  unfold decompile
  rw [hT, hP]
  rcases hD with hdec | ⟨g, hG⟩
  · simp [hdec, globPhase, hglob]
  · by_cases hdec : st.decompiled = true
    · simp [hdec, globPhase, hglob]
    · simp only [Bool.not_eq_true] at hdec
      by_cases hpe : env.pathExists p = true
      · simp [hdec, hG, hpe, globPhase, hglob]
      · simp only [Bool.not_eq_true] at hpe
        simp [hdec, hG, hpe, globPhase, hglob]

/-- Witness for C6 on the concrete sample world. -/
theorem decompile_multiple_matches_lists_candidates_witness :
    (decompile sampleEnv sampleState "f").result = .ok none ∧
    Event.display ("ERROR: Multiple similar or duplicate functions found with name `"
        ++ "f" ++ "`") ∈ (decompile sampleEnv sampleState "f").events ∧
    Event.display (specifyMsg ["out/ls/foo.c", "out/ls/fbar.c"])
      ∈ (decompile sampleEnv sampleState "f").events ∧
    ∀ q, Event.readF q ∉ (decompile sampleEnv sampleState "f").events :=
  decompile_multiple_matches_lists_candidates sampleEnv sampleState "f" "/bin/ls"
    "out" "out/ls/foo.c" "out/ls/fbar.c" [] rfl rfl (Or.inl rfl) rfl

/-- C2: the first decompile invocation of a session that finds a loaded
target clears (when present) and recreates the cache directory and runs
the external decompiler exactly once, after which the `decompiled` flag is
set; any invocation made with the flag already set runs the decompiler
zero times and leaves the flag set, so no later invocation of the session
re-invokes it. -/
theorem first_invocation_runs_decompiler_once
    (env : Env) (st : DState) (fn t p g : String)
    (hdec : st.decompiled = false)
    (hT : getTarget env.infoTargetOutput = .ok (some t))
    (hP : dictGet st.options "decomp_path" = .ok p)
    (hG : dictGet st.options "ghidra_path" = .ok g) :
    countRun (decompile env st fn).events = 1 ∧
    (decompile env st fn).state.decompiled = true ∧
    (env.pathExists p = true → Event.rmtree p ∈ (decompile env st fn).events) ∧
    Event.mkdir p ∈ (decompile env st fn).events ∧
    ∀ env2 st2 fn2, st2.decompiled = true →
      countRun (decompile env2 st2 fn2).events = 0 ∧
      (decompile env2 st2 fn2).state.decompiled = true := by
  have hshape : decompile env st fn = globPhase env { st with decompiled := true }
      fn p t (((if env.pathExists p then [Event.rmtree p] else []) ++ [Event.mkdir p]) ++
        [.display "Decompiling...",
         .runDecompiler p (pyExpanduser env.home g) t, .display "Done!"]) := by
    unfold decompile
    rw [hT, hP]
    simp [hdec, hG]
  obtain ⟨tail, he, hc⟩ := globPhase_events env { st with decompiled := true } fn p t
    (((if env.pathExists p then [Event.rmtree p] else []) ++ [Event.mkdir p]) ++
      [.display "Decompiling...",
       .runDecompiler p (pyExpanduser env.home g) t, .display "Done!"])
  refine ⟨?_, ?_, ?_, ?_, ?_⟩
  · rw [hshape, he, countRun_append, hc]
    by_cases hpe : env.pathExists p = true <;> simp [hpe, countRun_append, countRun]
  · rw [hshape, globPhase_state]
  · intro hpe
    rw [hshape, he]
    simp [hpe]
  · rw [hshape, he]
    by_cases hpe : env.pathExists p = true
    · simp [hpe]
    · simp only [Bool.not_eq_true] at hpe
      simp [hpe]
  · intro env2 st2 fn2 h2
    obtain ⟨hcr, hst⟩ := decompile_already env2 st2 fn2 h2
    exact ⟨hcr, by rw [hst]; exact h2⟩

/-- Witness for C2 on the concrete sample world. -/
theorem first_invocation_runs_decompiler_once_witness :
    countRun (decompile sampleEnv freshState "main").events = 1 ∧
    (decompile sampleEnv freshState "main").state.decompiled = true ∧
    (sampleEnv.pathExists "out" = true →
      Event.rmtree "out" ∈ (decompile sampleEnv freshState "main").events) ∧
    Event.mkdir "out" ∈ (decompile sampleEnv freshState "main").events ∧
    ∀ env2 st2 fn2, st2.decompiled = true →
      countRun (decompile env2 st2 fn2).events = 0 ∧
      (decompile env2 st2 fn2).state.decompiled = true :=
  first_invocation_runs_decompiler_once sampleEnv freshState "main" "/bin/ls"
    "out" "~/ghidra" rfl rfl rfl rfl

/-- C10: a first invocation that finds a loaded target sets the
`decompiled` flag, the whole run is insensitive to the exit status of the
external decompiler process (the status is never inspected), and from the
resulting state every later invocation runs the decompiler zero times: a
failed decompilation is never retried within the session. -/
theorem decompiled_flag_ignores_exit_status
    (env : Env) (st : DState) (fn t p g : String) (c : Int)
    (hdec : st.decompiled = false)
    (hT : getTarget env.infoTargetOutput = .ok (some t))
    (hP : dictGet st.options "decomp_path" = .ok p)
    (hG : dictGet st.options "ghidra_path" = .ok g) :
    (decompile env st fn).state.decompiled = true ∧
    decompile { env with runExitCode := c } st fn = decompile env st fn ∧
    ∀ env2 fn2, countRun (decompile env2 (decompile env st fn).state fn2).events = 0 := by
  have hshape : decompile env st fn = globPhase env { st with decompiled := true }
      fn p t (((if env.pathExists p then [Event.rmtree p] else []) ++ [Event.mkdir p]) ++
        [.display "Decompiling...",
         .runDecompiler p (pyExpanduser env.home g) t, .display "Done!"]) := by
    unfold decompile
    rw [hT, hP]
    simp [hdec, hG]
  have hflag : (decompile env st fn).state.decompiled = true := by
    rw [hshape, globPhase_state]
  refine ⟨hflag, ?_, ?_⟩
  · cases env
    rfl
  · intro env2 fn2
    exact (decompile_already env2 (decompile env st fn).state fn2 hflag).1

/-- Witness for C10 on the concrete sample world. -/
theorem decompiled_flag_ignores_exit_status_witness :
    (decompile sampleEnv freshState "main").state.decompiled = true ∧
    decompile { sampleEnv with runExitCode := 7 } freshState "main"
      = decompile sampleEnv freshState "main" ∧
    ∀ env2 fn2,
      countRun (decompile env2 (decompile sampleEnv freshState "main").state fn2).events
        = 0 :=
  decompiled_flag_ignores_exit_status sampleEnv freshState "main" "/bin/ls" "out"
    "~/ghidra" 7 rfl rfl rfl rfl

/-- The singleton as built when the config file is absent
(`FileNotFoundError`), with home `/root`. -/
def failedLoadInit : DState × List Event := initState ConfigRead.notFound "/root"

/-- C7 (code bug): even when the configuration file fails to load,
`_loadConfig` sets `loaded` to `true` (line 108 runs after the handled
exceptions, contradicting the comment on line 16), so the command handler
does not report the load error and proceeds into the decompile operation,
where the missing `decomp_path` key raises `KeyError`. -/
theorem loadConfig_marks_loaded_despite_failure :
    (loadConfig ConfigRead.notFound "/root" "config.toml").loaded = true ∧
    failedLoadInit.1.loaded = true ∧
    failedLoadInit.2
      = [Event.display "ERROR: Cannot locate /root/GDBDecompile/config.toml. Exiting."] ∧
    (invoke sampleEnv failedLoadInit.1 "main").result
      = .error (.keyError "decomp_path") ∧
    Event.display "ERROR: Extension improperly loaded. Exiting."
      ∉ (invoke sampleEnv failedLoadInit.1 "main").events := by
  refine ⟨rfl, rfl, rfl, rfl, ?_⟩
  decide

/-- A session whose config parsed to an empty table. -/
def emptyConfigState : DState where
  loaded := true
  options := []
  decompiled := false

/-- Counterexample to C8 as stated: with an empty (but loaded) config, the
command handler lets a `KeyError` exception propagate to the host
debugger. -/
theorem invoke_can_propagate_key_error :
    (invoke sampleEnv emptyConfigState "foo").result
      = .error (.keyError "decomp_path") ∧
    exOk (invoke sampleEnv emptyConfigState "foo").result = false :=
  ⟨rfl, rfl⟩

/-- C8 (amended): when the configuration provides both required keys and
the target query capture is well formed (it did not fail, and its output
is either empty or has a quoted path on the first line), no exception
escapes the command handler. -/
theorem invoke_no_exception_with_wellformed_inputs
    (env : Env) (st : DState) (arg : String)
    (hP : ∃ v, dictGet st.options "decomp_path" = .ok v)
    (hG : ∃ v, dictGet st.options "ghidra_path" = .ok v)
    (hT : exOk (getTarget env.infoTargetOutput) = true) :
    exOk (invoke env st arg).result = true := by
  unfold invoke
  by_cases hl : st.loaded = true
  · simp only [hl, Bool.not_true, Bool.false_eq_true, if_false]
    by_cases hc : 1 < ((splitOnChar ' ' arg.data).map String.mk).length ∨
        ((splitOnChar ' ' arg.data).map String.mk).headD "" = ""
    · rw [if_pos hc]
      rfl
    · rw [if_neg hc]
      have hdo := decompile_exOk env st
        (((splitOnChar ' ' arg.data).map String.mk).headD "") hP hG hT
      rcases hr : (decompile env st
          (((splitOnChar ' ' arg.data).map String.mk).headD "")).result with e | o
      · rw [hr] at hdo
        simp [exOk] at hdo
      · rcases o with _ | code
        · simp [hr, exOk]
        · simp [hr, exOk]
  · have hl' : st.loaded = false := by
      cases hb : st.loaded
      · rfl
      · exact absurd hb hl
    simp [hl', exOk]

/-- Witness for the amended C8 on the concrete sample world. -/
theorem invoke_no_exception_with_wellformed_inputs_witness :
    exOk (invoke sampleEnv sampleState "absent").result = true :=
  invoke_no_exception_with_wellformed_inputs sampleEnv sampleState "absent"
    ⟨"out", rfl⟩ ⟨"~/ghidra", rfl⟩ rfl

/-- The sample world with a cache subdirectory holding the single file
`xy`, answered through the concrete glob semantics. -/
def wildcardCacheEnv : Env := { sampleEnv with
  glob := globAt "out/ls" ["xy"]
  readFile := fun _ => "int xy;" }

/-- Counterexample to C9 as stated: for the function name `x*` and a cache
subdirectory listing `["xy"]`, the glob the code performs matches `xy`
even though `xy` does not start with `x*`, so the candidate set is not the
set of files whose name starts with the requested function name; run
against `decompile`, the stray candidate is even returned as the result. -/
theorem glob_candidates_differ_from_prefix_set :
    globDir "out/ls" ["xy"] ("x*" ++ "*") = ["out/ls/xy"] ∧
    ["xy"].filter (fun n => strStarts "x*" n) = [] ∧
    (decompile wildcardCacheEnv sampleState "x*").result = .ok (some "int xy;") := by
  refine ⟨?_, ?_, ?_⟩ <;> rfl

/-- C9 (amended): for a plain requested function name (nonempty, without
the glob metacharacters `*`, `?`, `[` and without `/`), the candidate set
produced by the glob over the cache subdirectory is exactly the set of
files there whose name starts with the function name. -/
theorem glob_candidates_eq_prefix_set_for_plain_names
    (dir : String) (L : List String) (f : String)
    (hne : ¬f = "")
    (hm : ∀ c ∈ f.data, ¬c = '*' ∧ ¬c = '?' ∧ ¬c = '[' ∧ ¬c = '/') :
    globDir dir L (f ++ "*") =
      (L.filter (fun n => strStarts f n)).map (fun n => dir ++ "/" ++ n) := by
  have hm' : ∀ c ∈ f.data, ¬c = '*' ∧ ¬c = '?' ∧ ¬c = '[' :=
    fun c hc => ⟨(hm c hc).1, (hm c hc).2.1, (hm c hc).2.2.1⟩
  have hdata : (f ++ "*").data = f.data ++ ['*'] := by
    rw [String.data_append]
  have hkey : ∀ n : String, fnmatch (f ++ "*").data n.data = strStarts f n := by
    intro n
    rw [hdata, fnmatch_lit f.data n.data hm']
    rfl
  obtain ⟨c, rest, hf⟩ : ∃ c rest, f.data = c :: rest := by
    cases hfd : f.data with
    | nil =>
      exact absurd (by cases f; simp_all) hne
    | cons c rest => exact ⟨c, rest, rfl⟩
  by_cases hc : c = '.'
  · have hh : strHeadIs '.' (f ++ "*") = true := by
      unfold strHeadIs
      rw [hdata, hf]
      simp [hc]
    unfold globDir
    simp only [hh, if_true]
    congr 1
    exact List.filter_congr fun n _ => hkey n
  · have hh : strHeadIs '.' (f ++ "*") = false := by
      unfold strHeadIs
      rw [hdata, hf]
      simp [hc]
    unfold globDir
    simp only [hh, Bool.false_eq_true, if_false]
    rw [filter_of_filter_not_hidden]
    · congr 1
      exact List.filter_congr fun n _ => hkey n
    · intro n hn
      rw [hkey n]
      unfold strHeadIs at hn
      cases hnd : n.data with
      | nil =>
        rw [hnd] at hn
        simp at hn
      | cons d nd =>
        rw [hnd] at hn
        have hd : d = '.' := by simpa using hn
        show (f.data.isPrefixOf n.data) = false
        rw [hf, hnd]
        have hcd : (c == d) = false := by simp [hd, hc]
        show ((c == d) && rest.isPrefixOf nd) = false
        rw [hcd]
        rfl

/-- Witness for the amended C9 on a concrete listing. -/
theorem glob_candidates_eq_prefix_set_for_plain_names_witness :
    globDir "out/ls" ["main.c", "x.c"] ("main" ++ "*") =
      ((["main.c", "x.c"].filter (fun n => strStarts "main" n)).map
        (fun n => "out/ls" ++ "/" ++ n)) :=
  glob_candidates_eq_prefix_set_for_plain_names "out/ls" ["main.c", "x.c"] "main"
    (by decide) (by decide)

end GDBDecompile
